import Mathlib

/-!
# GameOfLife (src/main.cpp): a shallow embedding of the cellular-automaton core

The C++ class `GameOfLife` keeps two `std::vector<std::vector<bool>>` grids, an
`unsigned int delay_ms` and a `bool is_running`.  The grids are modelled as lists of
lists of booleans, every `operator[]` access is fallible (`Option`), so that an access
outside a vector shows up as `none`.  Machine integers are `Int`/`Nat` with explicit
reduction modulo `2 ^ 32` where the C++ conversion rules make it matter.
-/

namespace GameOfLife

/-! ## Program parameters (main.cpp, lines 11-15) -/

def WINDOW_HEIGHT : Nat := 900
def WINDOW_WIDTH : Nat := 900
def CELL_SIZE : Nat := 8
def ROW_MAX : Nat := WINDOW_HEIGHT / CELL_SIZE
def COL_MAX : Nat := WINDOW_WIDTH / CELL_SIZE

/-- Number of values of a 32-bit machine word. -/
def U32 : Nat := 4294967296

/-- Conversion of a (signed) integer to `unsigned int`: reduction modulo `2 ^ 32`. -/
def toUnsigned (x : Int) : Nat := (x % (U32 : Int)).toNat

/-! ## Data model -/

/-- A `std::vector<std::vector<bool>>`. -/
abbrev Grid := List (List Bool)

/-- The members of `class GameOfLife` that the engine logic reads or writes. -/
structure Game where
  curr_grid : Grid
  next_grid : Grid
  delay_ms : Nat
  is_running : Bool
deriving DecidableEq, Repr

/-- Read `g[i][j]`; `none` when either index is outside its vector. -/
def readCell (g : Grid) (i j : Nat) : Option Bool :=
  match g[i]? with
  | none => none
  | some r => r[j]?

/-- Assignment `g[i][j] = v`; `none` when either index is outside its vector. -/
def writeCell (g : Grid) (i j : Nat) (v : Bool) : Option Grid :=
  match g[i]? with
  | none => none
  | some r => if j < r.length then some (g.set i (r.set j v)) else none

/-- The vector built by `std::vector<std::vector<bool>>(ROW_MAX, std::vector<bool>(COL_MAX, false))`. -/
def deadGrid : Grid := List.replicate ROW_MAX (List.replicate COL_MAX false)

/-- State built by the constructor `GameOfLife::GameOfLife` (lines 150-163). -/
def init : Game :=
  { curr_grid := deadGrid, next_grid := deadGrid, delay_ms := 100, is_running := false }

/-- A grid has `ROW_MAX` rows of `COL_MAX` cells each. -/
def WellFormed (g : Grid) : Prop := g.length = ROW_MAX ∧ ∀ r ∈ g, r.length = COL_MAX

instance (g : Grid) : Decidable (WellFormed g) := by
  unfold WellFormed; infer_instance

/-! ## `clear` (lines 84-90) -/

/-- The two nested loops of `clear`, writing `false` to `curr_grid[i][j]`. -/
def clear (s : Game) : Option Game := do
  let g ← (List.range ROW_MAX).foldlM
    (fun g i => (List.range COL_MAX).foldlM (fun g j => writeCell g i j false) g)
    s.curr_grid
  pure { s with curr_grid := g }

/-! ## `count_neighbours` (lines 92-105) -/

/-- The index expression `(row + i + ROW_MAX) % ROW_MAX`: `row + i` is an `int`, which is
converted to `unsigned int` for the addition of the unsigned bound `m`; the sum and the
remainder are unsigned 32-bit operations. -/
def wrapIndex (row i : Int) (m : Nat) : Nat :=
  ((toUnsigned (row + i) + m) % U32) % m

/-- The body of `count_neighbours`: two loops over `-1, 0, 1`, skipping `(0, 0)`. -/
def count_neighbours (g : Grid) (row col : Int) : Option Int :=
  ([-1, 0, 1] : List Int).foldlM
    (fun count i =>
      ([-1, 0, 1] : List Int).foldlM
        (fun count j =>
          if i = 0 ∧ j = 0 then some count
          else
            match readCell g (wrapIndex row i ROW_MAX) (wrapIndex col j COL_MAX) with
            | none => none
            | some true => some (count + 1)
            | some false => some count)
        count)
    0

/-! ## `update` (lines 107-123) -/

/-- One iteration of the inner loop body of `update` (lines 113-119). -/
def updateCell (curr next : Grid) (i j : Nat) : Option Grid :=
  match count_neighbours curr (i : Int) (j : Int) with
  | none => none
  | some neighbours =>
    match readCell curr i j with
    | none => none
    | some true => writeCell next i j (neighbours == 2 || neighbours == 3)
    | some false => writeCell next i j (neighbours == 3)

/-- The method `update`: force `curr_grid[50][50]`, fill `next_grid` cell by cell from
`curr_grid`, then copy `next_grid` over `curr_grid`. -/
def update (s : Game) : Option Game := do
  let curr ← writeCell s.curr_grid 50 50 true
  let next ← (List.range ROW_MAX).foldlM
    (fun next i => (List.range COL_MAX).foldlM (fun next j => updateCell curr next i j) next)
    s.next_grid
  pure { s with curr_grid := next, next_grid := next }

/-- Repeated calls of `update`. -/
def updateN : Nat → Game → Option Game
  | 0, s => some s
  | n + 1, s => (update s).bind (updateN n)

/-! ## Event handling in `run` (lines 183-196) -/

/-- The `speed+` branch (lines 183-186): `if (delay_ms > 0) delay_ms -= 25;` on an
`unsigned int`. -/
def speedup (s : Game) : Game :=
  if s.delay_ms > 0 then { s with delay_ms := (s.delay_ms + U32 - 25) % U32 } else s

/-- The `speed-` branch (lines 187-189): `delay_ms += 25;` on an `unsigned int`. -/
def slowdown (s : Game) : Game :=
  { s with delay_ms := (s.delay_ms + 25) % U32 }

/-- The grid click branch (lines 190-196).  `px`, `py` are the `int` members of
`mouse_pos`; comparing or dividing them with an `unsigned int` converts them to
`unsigned int` first. -/
def gridClick (s : Game) (px py : Int) : Option Game :=
  if toUnsigned px < WINDOW_HEIGHT ∧ toUnsigned py < WINDOW_WIDTH then
    let x := toUnsigned px / CELL_SIZE
    let y := toUnsigned py / CELL_SIZE
    if x < ROW_MAX ∧ y < COL_MAX then
      match readCell s.curr_grid x y with
      | none => none
      | some b =>
        match writeCell s.curr_grid x y (!b) with
        | none => none
        | some g => some { s with curr_grid := g }
    else some s
  else some s

/-- The commands of the two speed buttons. -/
inductive SpeedCmd where
  | plus
  | minus
deriving DecidableEq, Repr

/-- Effect of one speed command. -/
def SpeedCmd.apply : SpeedCmd → Game → Game
  | .plus, s => speedup s
  | .minus, s => slowdown s

/-- Effect of a sequence of speed commands, first command first. -/
def runSpeed (cmds : List SpeedCmd) (s : Game) : Game :=
  cmds.foldl (fun s c => c.apply s) s

/-! ## Auxiliary definitions, the rule as the specification words it, and concrete grids -/

/-- Total read of a cell: `false` outside the grid. -/
def cellAt (g : Grid) (i j : Nat) : Bool := (g.getD i []).getD j false

/-- The grid with `ROW_MAX` rows and `COL_MAX` columns whose cell `(i, j)` is `F i j`. -/
def mkGrid (F : Nat → Nat → Bool) : Grid :=
  (List.range ROW_MAX).map fun i => (List.range COL_MAX).map fun j => F i j

/-- The eight neighbour offsets `(dr, dc)`, `dr, dc ∈ {-1, 0, 1}`, without `(0, 0)`. -/
def offsets : List (Int × Int) :=
  [(-1, -1), (-1, 0), (-1, 1), (0, -1), (0, 1), (1, -1), (1, 0), (1, 1)]

/-- Coordinate `(x + d) mod m` with the mathematical, non-negative remainder. -/
def torus (x d : Int) (m : Nat) : Nat := ((x + d) % (m : Int)).toNat

/-- Specification (spec.md 4.1, `count_alive_neighbors`): the number of alive cells among
the eight toroidal neighbours `((row + dr) mod ROW_MAX, (col + dc) mod COL_MAX)`. -/
def liveNeighbours (g : Grid) (row col : Int) : Nat :=
  offsets.countP fun p => cellAt g (torus row p.1 ROW_MAX) (torus col p.2 COL_MAX)

/-- The grid `g` after the assignment `g[i][j] = v` (unchanged outside the vectors). -/
def withCell (g : Grid) (i j : Nat) (v : Bool) : Grid := g.set i ((g.getD i []).set j v)

/-- Specification (spec.md 4.2, transition rule B3/S23): an alive cell survives with 2 or
3 live neighbours, a dead cell is born with exactly 3. -/
def rule (alive : Bool) (n : Nat) : Bool :=
  if alive then n == 2 || n == 3 else n == 3

/-- Specification (spec.md 4.2, `advance`): one synchronous generation; every cell of the
result is decided by the state and the toroidal neighbour count of that cell in `g`. -/
def lifeStep (g : Grid) : Grid :=
  mkGrid fun i j => rule (cellAt g i j) (liveNeighbours g (i : Int) (j : Int))

/-- Grid whose only alive cells are `(49, 49)` and `(49, 50)`. -/
def pairGrid : Grid := mkGrid fun i j => i == 49 && (j == 49 || j == 50)

/-- The 2x2 block with upper left corner `(r, c)`, indices modulo the grid size. -/
def blockGrid (r c : Nat) : Grid :=
  mkGrid fun i j => (i == r % ROW_MAX || i == (r + 1) % ROW_MAX) &&
    (j == c % COL_MAX || j == (c + 1) % COL_MAX)

/-- The horizontal blinker `(r, c-1), (r, c), (r, c+1)`, indices modulo the grid size. -/
def blinkerH (r c : Nat) : Grid :=
  mkGrid fun i j => i == r % ROW_MAX &&
    (j == (c + COL_MAX - 1) % COL_MAX || j == c % COL_MAX || j == (c + 1) % COL_MAX)

/-- Grid whose only alive cell is `(49, 50)`, a neighbour of the cell `(50, 50)`. -/
def singleGrid : Grid := mkGrid fun i j => i == 49 && j == 50

/-! ## Auxiliary lemmas -/

theorem ROW_MAX_eq : ROW_MAX = 112 := rfl
theorem COL_MAX_eq : COL_MAX = 112 := rfl

theorem foldlM_range_inv {β : Type} (f : β → Nat → Option β) (P : Nat → β → Prop)
    (n : Nat) (b : β) (h0 : P 0 b)
    (hstep : ∀ k b, k < n → P k b → ∃ b', f b k = some b' ∧ P (k + 1) b') :
    ∃ b', (List.range n).foldlM f b = some b' ∧ P n b' := by
  suffices h : ∀ m, m ≤ n → ∃ b', (List.range m).foldlM f b = some b' ∧ P m b' from h n le_rfl
  intro m
  induction m with
  | zero => intro _; exact ⟨b, by simp, h0⟩
  | succ m ih =>
    intro hm
    obtain ⟨b1, hb1, hP1⟩ := ih (Nat.le_of_succ_le hm)
    obtain ⟨b2, hb2, hP2⟩ := hstep m b1 hm hP1
    refine ⟨b2, ?_, hP2⟩
    rw [List.range_succ, List.foldlM_append, hb1]
    simp [hb2]

theorem wf_row {g : Grid} (h : WellFormed g) {i : Nat} (hi : i < ROW_MAX) :
    ∃ r, g[i]? = some r ∧ r.length = COL_MAX := by
  have hlt : i < g.length := by rw [h.1]; exact hi
  exact ⟨g[i], List.getElem?_eq_getElem hlt, h.2 _ (List.getElem_mem hlt)⟩

theorem readCell_wf {g : Grid} (h : WellFormed g) {i j : Nat} (hi : i < ROW_MAX)
    (hj : j < COL_MAX) : readCell g i j = some (cellAt g i j) := by
  obtain ⟨r, hr, hlen⟩ := wf_row h hi
  have hjr : j < r.length := by rw [hlen]; exact hj
  simp [readCell, cellAt, hr, List.getD_eq_getElem?_getD, List.getElem?_eq_getElem hjr]

theorem writeCell_wf {g : Grid} (h : WellFormed g) {i j : Nat} (hi : i < ROW_MAX)
    (hj : j < COL_MAX) (v : Bool) :
    ∃ g', writeCell g i j v = some g' ∧ WellFormed g' ∧
      ∀ a b, cellAt g' a b = if a = i ∧ b = j then v else cellAt g a b := by
  obtain ⟨r, hr, hlen⟩ := wf_row h hi
  have hjr : j < r.length := by rw [hlen]; exact hj
  have hlt : i < g.length := by rw [h.1]; exact hi
  refine ⟨g.set i (r.set j v), by simp [writeCell, hr, hjr], ⟨by simp [h.1], ?_⟩, ?_⟩
  · intro r' hr'
    rcases List.mem_or_eq_of_mem_set hr' with hm | he
    · exact h.2 _ hm
    · simp [he, hlen]
  · intro a b
    by_cases ha : a = i
    · subst ha
      by_cases hb : b = j
      · subst hb
        simp [cellAt, List.getD_eq_getElem?_getD, hlt, hjr]
      · have hb' : ¬ j = b := fun e => hb e.symm
        simp [cellAt, List.getD_eq_getElem?_getD, hlt, hb, hb', hr]
    · have ha' : ¬ i = a := fun e => ha e.symm
      simp [cellAt, List.getD_eq_getElem?_getD, ha, ha', List.getElem?_set_ne]

theorem grid_ext {g g' : Grid} (h : WellFormed g) (h' : WellFormed g')
    (hc : ∀ i j, i < ROW_MAX → j < COL_MAX → cellAt g i j = cellAt g' i j) : g = g' := by
  apply List.ext_getElem (by rw [h.1, h'.1])
  intro i hi hi'
  have hiR : i < ROW_MAX := by rw [← h.1]; exact hi
  have hl : (g[i]).length = COL_MAX := h.2 _ (List.getElem_mem hi)
  have hl' : (g'[i]).length = COL_MAX := h'.2 _ (List.getElem_mem hi')
  apply List.ext_getElem (by rw [hl, hl'])
  intro j hj hj'
  have hjC : j < COL_MAX := by rw [← hl]; exact hj
  have := hc i j hiR hjC
  simpa [cellAt, List.getD_eq_getElem?_getD, List.getElem?_eq_getElem hi,
    List.getElem?_eq_getElem hi', List.getElem?_eq_getElem hj, List.getElem?_eq_getElem hj'] using this

theorem mkGrid_wf (F : Nat → Nat → Bool) : WellFormed (mkGrid F) := by
  refine ⟨by simp [mkGrid], ?_⟩
  intro r hr
  simp only [mkGrid, List.mem_map] at hr
  obtain ⟨i, _, rfl⟩ := hr
  simp

theorem cellAt_mkGrid (F : Nat → Nat → Bool) {i j : Nat} (hi : i < ROW_MAX) (hj : j < COL_MAX) :
    cellAt (mkGrid F) i j = F i j := by
  simp [cellAt, mkGrid, List.getD_eq_getElem?_getD, List.getElem?_eq_getElem, hi, hj]

/-- A double loop over all rows and columns whose body writes `F i j` to cell `(i, j)`
fills a well-formed grid with `F`. -/
theorem fill_loop (step : Grid → Nat → Nat → Option Grid) (F : Nat → Nat → Bool)
    (hstep : ∀ g i j, WellFormed g → i < ROW_MAX → j < COL_MAX →
      step g i j = writeCell g i j (F i j))
    (g : Grid) (hg : WellFormed g) :
    (List.range ROW_MAX).foldlM
      (fun g i => (List.range COL_MAX).foldlM (fun g j => step g i j) g) g
      = some (mkGrid F) := by
  obtain ⟨g', hg', hwf, hcells⟩ := foldlM_range_inv
    (fun g i => (List.range COL_MAX).foldlM (fun g j => step g i j) g)
    (fun i g => WellFormed g ∧ ∀ a b, a < i → b < COL_MAX → cellAt g a b = F a b)
    ROW_MAX g ⟨hg, fun a b ha => absurd ha (Nat.not_lt_zero a)⟩
    (by
      intro i g1 hi ⟨hwf1, hdone⟩
      obtain ⟨g2, hg2, hwf2, hrows, hrow⟩ := foldlM_range_inv
        (fun g j => step g i j)
        (fun j g => WellFormed g ∧ (∀ a b, a < i → b < COL_MAX → cellAt g a b = F a b) ∧
          ∀ b, b < j → cellAt g i b = F i b)
        COL_MAX g1 ⟨hwf1, hdone, fun b hb => absurd hb (Nat.not_lt_zero b)⟩
        (by
          intro j g3 hj ⟨hwf3, hprev, hcur⟩
          obtain ⟨g4, hg4, hwf4, hc4⟩ := writeCell_wf hwf3 hi hj (F i j)
          refine ⟨g4, (hstep g3 i j hwf3 hi hj).trans hg4, hwf4, ?_, ?_⟩
          · intro a b ha hb
            have hne : ¬ (a = i ∧ b = j) := fun e => absurd e.1 (Nat.ne_of_lt ha)
            rw [hc4, if_neg hne]; exact hprev a b ha hb
          · intro b hb
            rw [hc4]
            by_cases hbj : b = j
            · simp [hbj]
            · have hne : ¬ (i = i ∧ b = j) := fun e => hbj e.2
              rw [if_neg hne]
              exact hcur b (Nat.lt_of_le_of_ne (Nat.le_of_lt_succ hb) hbj))
      refine ⟨g2, hg2, hwf2, ?_⟩
      intro a b ha hb
      by_cases hai : a = i
      · subst hai; exact hrow b hb
      · exact hrows a b (Nat.lt_of_le_of_ne (Nat.le_of_lt_succ ha) hai) hb)
  rw [hg']
  congr 1
  apply grid_ext hwf (mkGrid_wf F)
  intro i j hi hj
  rw [hcells i j hi hj, cellAt_mkGrid F hi hj]

theorem deadGrid_eq : deadGrid = mkGrid (fun _ _ => false) := by
  apply List.ext_getElem (by simp [deadGrid, mkGrid])
  intro i h1 h2
  apply List.ext_getElem (by simp [deadGrid, mkGrid])
  intro j h3 h4
  simp [deadGrid, mkGrid]

theorem deadGrid_wf : WellFormed deadGrid := by
  rw [deadGrid_eq]; exact mkGrid_wf _

theorem clear_eq (s : Game) (h : WellFormed s.curr_grid) :
    clear s = some { s with curr_grid := deadGrid } := by
  unfold clear
  rw [fill_loop (fun g i j => writeCell g i j false) (fun _ _ => false)
    (fun _ _ _ _ _ _ => rfl) s.curr_grid h, ← deadGrid_eq]
  rfl

theorem wrapIndex_112 {x d : Int} (h0 : 0 ≤ x) (h1 : x < 112) (hd : -1 ≤ d ∧ d ≤ 1) :
    wrapIndex x d 112 = torus x d 112 ∧ torus x d 112 < 112 := by
  simp only [wrapIndex, toUnsigned, U32, torus, Nat.cast_ofNat]
  by_cases hneg : x + d < 0
  · have hm : x + d = -1 := by omega
    rw [hm]; decide
  · have e : (x + d) % 4294967296 = x + d := Int.emod_eq_of_lt (by omega) (by omega)
    rw [e]
    omega

theorem wrapIndex_row {row d : Int} (h0 : 0 ≤ row) (h1 : row < ROW_MAX)
    (hd : -1 ≤ d ∧ d ≤ 1) :
    wrapIndex row d ROW_MAX = torus row d ROW_MAX ∧ torus row d ROW_MAX < ROW_MAX := by
  rw [ROW_MAX_eq] at *
  exact wrapIndex_112 h0 (by simpa using h1) hd

theorem wrapIndex_col {col d : Int} (h0 : 0 ≤ col) (h1 : col < COL_MAX)
    (hd : -1 ≤ d ∧ d ≤ 1) :
    wrapIndex col d COL_MAX = torus col d COL_MAX ∧ torus col d COL_MAX < COL_MAX := by
  rw [COL_MAX_eq] at *
  exact wrapIndex_112 h0 (by simpa using h1) hd

theorem neighbour_read {g : Grid} (h : WellFormed g) {row col i j : Int}
    (hr0 : 0 ≤ row) (hr1 : row < ROW_MAX) (hc0 : 0 ≤ col) (hc1 : col < COL_MAX)
    (hi : -1 ≤ i ∧ i ≤ 1) (hj : -1 ≤ j ∧ j ≤ 1) :
    readCell g (wrapIndex row i ROW_MAX) (wrapIndex col j COL_MAX)
      = some (cellAt g (torus row i ROW_MAX) (torus col j COL_MAX)) := by
  obtain ⟨e1, b1⟩ := wrapIndex_row hr0 hr1 hi
  obtain ⟨e2, b2⟩ := wrapIndex_col hc0 hc1 hj
  rw [e1, e2]
  exact readCell_wf h b1 b2

theorem count_neighbours_eq {g : Grid} (h : WellFormed g) {row col : Int}
    (hr0 : 0 ≤ row) (hr1 : row < ROW_MAX) (hc0 : 0 ≤ col) (hc1 : col < COL_MAX) :
    count_neighbours g row col = some (liveNeighbours g row col : Int) := by
  have R := fun (i j : Int) (hi : -1 ≤ i ∧ i ≤ 1) (hj : -1 ≤ j ∧ j ≤ 1) =>
    neighbour_read h hr0 hr1 hc0 hc1 hi hj
  simp only [count_neighbours, List.foldlM_cons, List.foldlM_nil, liveNeighbours, offsets,
    List.countP_cons, List.countP_nil,
    R (-1) (-1) (by omega) (by omega), R (-1) 0 (by omega) (by omega),
    R (-1) 1 (by omega) (by omega), R 0 (-1) (by omega) (by omega),
    R 0 1 (by omega) (by omega), R 1 (-1) (by omega) (by omega),
    R 1 0 (by omega) (by omega), R 1 1 (by omega) (by omega)]
  cases cellAt g (torus row (-1) ROW_MAX) (torus col (-1) COL_MAX) <;>
  cases cellAt g (torus row (-1) ROW_MAX) (torus col 0 COL_MAX) <;>
  cases cellAt g (torus row (-1) ROW_MAX) (torus col 1 COL_MAX) <;>
  cases cellAt g (torus row 0 ROW_MAX) (torus col (-1) COL_MAX) <;>
  cases cellAt g (torus row 0 ROW_MAX) (torus col 1 COL_MAX) <;>
  cases cellAt g (torus row 1 ROW_MAX) (torus col (-1) COL_MAX) <;>
  cases cellAt g (torus row 1 ROW_MAX) (torus col 0 COL_MAX) <;>
  cases cellAt g (torus row 1 ROW_MAX) (torus col 1 COL_MAX) <;>
  rfl

theorem writeCell_eq_withCell {g : Grid} (h : WellFormed g) {i j : Nat} (hi : i < ROW_MAX)
    (hj : j < COL_MAX) (v : Bool) : writeCell g i j v = some (withCell g i j v) := by
  obtain ⟨r, hr, hlen⟩ := wf_row h hi
  have hjr : j < r.length := by rw [hlen]; exact hj
  simp [writeCell, withCell, hr, hjr, List.getD_eq_getElem?_getD]

theorem withCell_wf {g : Grid} (h : WellFormed g) {i j : Nat} (hi : i < ROW_MAX)
    (hj : j < COL_MAX) (v : Bool) : WellFormed (withCell g i j v) := by
  obtain ⟨g', hg', hwf, _⟩ := writeCell_wf h hi hj v
  rw [writeCell_eq_withCell h hi hj v] at hg'
  rw [Option.some.inj hg']; exact hwf

theorem cellAt_withCell {g : Grid} (h : WellFormed g) {i j : Nat} (hi : i < ROW_MAX)
    (hj : j < COL_MAX) (v : Bool) (a b : Nat) :
    cellAt (withCell g i j v) a b = if a = i ∧ b = j then v else cellAt g a b := by
  obtain ⟨g', hg', _, hc⟩ := writeCell_wf h hi hj v
  rw [writeCell_eq_withCell h hi hj v] at hg'
  rw [Option.some.inj hg']; exact hc a b

theorem updateCell_eq {curr next : Grid} (hc : WellFormed curr) {i j : Nat}
    (hi : i < ROW_MAX) (hj : j < COL_MAX) :
    updateCell curr next i j
      = writeCell next i j (rule (cellAt curr i j) (liveNeighbours curr (i : Int) (j : Int))) := by
  have hn := count_neighbours_eq hc (Int.ofNat_nonneg i) (Int.ofNat_lt.mpr hi)
    (Int.ofNat_nonneg j) (Int.ofNat_lt.mpr hj)
  simp only [updateCell, hn, readCell_wf hc hi hj]
  cases cellAt curr i j
  · simp only [rule]
    congr 1
    simp only [Bool.false_eq_true, if_false]
    rw [Bool.eq_iff_iff]; simp only [beq_iff_eq]; norm_cast
  · simp only [rule]
    congr 1
    simp only [if_true]
    rw [Bool.eq_iff_iff]; simp only [Bool.or_eq_true, beq_iff_eq]; norm_cast

theorem update_eq (s : Game) (hc : WellFormed s.curr_grid) (hn : WellFormed s.next_grid) :
    update s = some { s with curr_grid := lifeStep (withCell s.curr_grid 50 50 true),
                             next_grid := lifeStep (withCell s.curr_grid 50 50 true) } := by
  have h50 : 50 < ROW_MAX := by decide
  have h50c : 50 < COL_MAX := by decide
  have hw := withCell_wf hc h50 h50c true
  unfold update
  rw [writeCell_eq_withCell hc h50 h50c true]
  simp only [Option.bind_eq_bind, Option.some_bind]
  rw [fill_loop (fun next i j => updateCell (withCell s.curr_grid 50 50 true) next i j)
    (fun i j => rule (cellAt (withCell s.curr_grid 50 50 true) i j)
      (liveNeighbours (withCell s.curr_grid 50 50 true) (i : Int) (j : Int)))
    (fun g i j _ hi hj => updateCell_eq hw hi hj) s.next_grid hn]
  rfl

theorem lifeStep_wf (g : Grid) : WellFormed (lifeStep g) := mkGrid_wf _

theorem cellAt_lifeStep (g : Grid) {i j : Nat} (hi : i < ROW_MAX) (hj : j < COL_MAX) :
    cellAt (lifeStep g) i j = rule (cellAt g i j) (liveNeighbours g (i : Int) (j : Int)) :=
  cellAt_mkGrid _ hi hj

theorem readCell_lifeStep (g : Grid) {i j : Nat} (hi : i < ROW_MAX) (hj : j < COL_MAX) :
    readCell (lifeStep g) i j
      = some (rule (cellAt g i j) (liveNeighbours g (i : Int) (j : Int))) := by
  rw [readCell_wf (lifeStep_wf g) hi hj, cellAt_lifeStep g hi hj]

theorem torus_ne_self {x d : Int} (h0 : 0 ≤ x) (h1 : x < 112) (hd : -1 ≤ d ∧ d ≤ 1)
    (h : torus x d 112 = x.toNat) : d = 0 := by
  simp only [torus, Nat.cast_ofNat] at h
  omega

theorem offsets_mem {p : Int × Int} (hp : p ∈ offsets) :
    (-1 ≤ p.1 ∧ p.1 ≤ 1) ∧ (-1 ≤ p.2 ∧ p.2 ≤ 1) ∧ ¬ (p.1 = 0 ∧ p.2 = 0) := by
  simp only [offsets, List.mem_cons, List.mem_singleton, List.mem_nil_iff, or_false] at hp
  rcases hp with h | h | h | h | h | h | h | h <;> subst h <;> decide

theorem liveNeighbours_le (g : Grid) (row col : Int) : liveNeighbours g row col ≤ 8 :=
  List.countP_le_length _

theorem liveNeighbours_withCell_self {g : Grid} (h : WellFormed g) {row col : Int}
    (hr0 : 0 ≤ row) (hr1 : row < ROW_MAX) (hc0 : 0 ≤ col) (hc1 : col < COL_MAX) (v : Bool) :
    liveNeighbours (withCell g row.toNat col.toNat v) row col = liveNeighbours g row col := by
  have hr : row.toNat < ROW_MAX := by rw [ROW_MAX_eq] at *; omega
  have hc : col.toNat < COL_MAX := by rw [COL_MAX_eq] at *; omega
  apply List.countP_congr
  intro p hp
  obtain ⟨h1, h2, h3⟩ := offsets_mem hp
  rw [cellAt_withCell h hr hc]
  have hne : ¬ (torus row p.1 ROW_MAX = row.toNat ∧ torus col p.2 COL_MAX = col.toNat) := by
    rintro ⟨e1, e2⟩
    rw [ROW_MAX_eq] at e1 hr1
    rw [COL_MAX_eq] at e2 hc1
    exact h3 ⟨torus_ne_self hr0 (by simpa using hr1) h1 e1,
      torus_ne_self hc0 (by simpa using hc1) h2 e2⟩
  rw [if_neg hne]

theorem torus_inj {x d e : Int} (hd : -1 ≤ d ∧ d ≤ 1)
    (he : -1 ≤ e ∧ e ≤ 1) (h : torus x d 112 = torus x e 112) : d = e := by
  simp only [torus, Nat.cast_ofNat] at h
  omega

theorem countP_le_add {α : Type} (P Q T : α → Bool) (l : List α)
    (h : ∀ p ∈ l, P p = true → Q p = true ∨ T p = true) :
    l.countP P ≤ l.countP Q + l.countP T := by
  induction l with
  | nil => simp
  | cons a l ih =>
    have ih1 := ih (fun p hp => h p (List.mem_cons_of_mem a hp))
    have ha := h a (List.mem_cons_self a l)
    simp only [List.countP_cons]
    cases hP : P a <;> cases hQ : Q a <;> cases hT : T a <;> simp_all <;> omega

theorem countP_eq_le_one {α β : Type} [DecidableEq β] (f : α → β) (t : β) (l : List α)
    (hnd : l.Nodup) (hinj : ∀ p ∈ l, ∀ q ∈ l, f p = f q → p = q) :
    l.countP (fun p => decide (f p = t)) ≤ 1 := by
  induction l with
  | nil => simp
  | cons a l ih =>
    have hnd1 := List.nodup_cons.mp hnd
    have ih1 := ih hnd1.2 (fun p hp q hq => hinj p (List.mem_cons_of_mem a hp) q
      (List.mem_cons_of_mem a hq))
    by_cases hat : f a = t
    · have hz : l.countP (fun p => decide (f p = t)) = 0 := by
        rw [List.countP_eq_zero]
        intro q hq hqt
        have hfq : f q = t := of_decide_eq_true hqt
        have hqa : a = q := hinj a (List.mem_cons_self a l) q (List.mem_cons_of_mem a hq)
          (hat.trans hfq.symm)
        exact hnd1.1 (hqa ▸ hq)
      simp [List.countP_cons, hat, hz]
    · simp only [List.countP_cons, hat, decide_False, Bool.false_eq_true, if_false, add_zero]
      exact ih1

/-- At most one of the eight neighbour positions of a cell is a given position. -/
theorem countP_target_le_one (i j : Int) (a b : Nat) :
    offsets.countP (fun p => decide (torus i p.1 112 = a ∧ torus j p.2 112 = b)) ≤ 1 := by
  have hc := countP_eq_le_one (fun p : Int × Int => (torus i p.1 112, torus j p.2 112)) (a, b)
    offsets (by decide) (by
      intro p hp q hq hpq
      obtain ⟨p1, p2, _⟩ := offsets_mem hp
      obtain ⟨q1, q2, _⟩ := offsets_mem hq
      simp only [Prod.mk.injEq] at hpq
      exact Prod.ext (torus_inj p1 q1 hpq.1) (torus_inj p2 q2 hpq.2))
  simpa only [Prod.mk.injEq] using hc

/-- Forcing one cell alive raises a neighbour count by at most one. -/
theorem liveNeighbours_force_le {g : Grid} (h : WellFormed g) {a b : Nat}
    (ha : a < ROW_MAX) (hb : b < COL_MAX) (i j : Int) :
    liveNeighbours (withCell g a b true) i j ≤ liveNeighbours g i j + 1 := by
  refine le_trans (countP_le_add _ _
    (fun p => decide (torus i p.1 112 = a ∧ torus j p.2 112 = b)) offsets ?_)
    (Nat.add_le_add_left (countP_target_le_one i j a b) _)
  intro p _ hp
  rw [cellAt_withCell h ha hb] at hp
  by_cases hab : torus i p.1 ROW_MAX = a ∧ torus j p.2 COL_MAX = b
  · right
    rw [ROW_MAX_eq, COL_MAX_eq] at hab
    simpa using hab
  · left
    rw [if_neg hab] at hp
    exact hp

theorem rule_le_one (alive : Bool) {n : Nat} (h : n ≤ 1) : rule alive n = false := by
  have h2 : n ≠ 2 := by omega
  have h3 : n ≠ 3 := by omega
  cases alive <;> simp [rule, h2, h3]

theorem cellAt_deadGrid (a b : Nat) : cellAt deadGrid a b = false := by
  by_cases ha : a < ROW_MAX
  · by_cases hb : b < COL_MAX
    · rw [deadGrid_eq, cellAt_mkGrid _ ha hb]
    · simp [cellAt, deadGrid, List.getD_eq_getElem?_getD, List.getElem?_replicate, ha, hb]
  · simp [cellAt, deadGrid, List.getD_eq_getElem?_getD, List.getElem?_replicate, ha]

theorem liveNeighbours_deadGrid (i j : Int) : liveNeighbours deadGrid i j = 0 := by
  rw [liveNeighbours, List.countP_eq_zero]
  intro p _
  simp [cellAt_deadGrid]

/-- The forced cell of `update` dies at once on the all-dead grid and gives birth to
nothing. -/
theorem lifeStep_forced_dead : lifeStep (withCell deadGrid 50 50 true) = deadGrid := by
  apply grid_ext (lifeStep_wf _) deadGrid_wf
  intro i j hi hj
  rw [cellAt_lifeStep _ hi hj, cellAt_deadGrid]
  apply rule_le_one
  have h := liveNeighbours_force_le deadGrid_wf (by decide : 50 < ROW_MAX)
    (by decide : 50 < COL_MAX) (i : Int) (j : Int)
  rw [liveNeighbours_deadGrid] at h
  exact h

/-! ## Theorems about the claims -/

/-- C2: on a well-formed grid and for `row`, `col` inside the grid, every index that
`count_neighbours` computes with 32-bit mixed arithmetic equals the mathematical
`(row + dr) mod ROW_MAX`, `(col + dc) mod COL_MAX`, lies inside the grid, is read
successfully and differs from `(row, col)`; the function returns the number of alive
cells among the eight toroidal neighbours, which is at most 8 and does not depend on the
cell `(row, col)` itself; an alive cell at `(ROW_MAX-1, COL_MAX-1)` is counted for
`(0, 0)`. -/
theorem count_neighbours_spec (g : Grid) (hg : WellFormed g) (row col : Int)
    (hr0 : 0 ≤ row) (hr1 : row < ROW_MAX) (hc0 : 0 ≤ col) (hc1 : col < COL_MAX) :
    (∀ p ∈ offsets,
        wrapIndex row p.1 ROW_MAX = torus row p.1 ROW_MAX ∧
        wrapIndex row p.1 ROW_MAX < ROW_MAX ∧
        wrapIndex col p.2 COL_MAX = torus col p.2 COL_MAX ∧
        wrapIndex col p.2 COL_MAX < COL_MAX ∧
        readCell g (wrapIndex row p.1 ROW_MAX) (wrapIndex col p.2 COL_MAX)
          = some (cellAt g (torus row p.1 ROW_MAX) (torus col p.2 COL_MAX)) ∧
        ¬ (wrapIndex row p.1 ROW_MAX = row.toNat ∧ wrapIndex col p.2 COL_MAX = col.toNat)) ∧
    count_neighbours g row col = some (liveNeighbours g row col : Int) ∧
    liveNeighbours g row col ≤ 8 ∧
    (∀ v, count_neighbours (withCell g row.toNat col.toNat v) row col
        = count_neighbours g row col) ∧
    (row = 0 → col = 0 → cellAt g (ROW_MAX - 1) (COL_MAX - 1) = true →
        1 ≤ liveNeighbours g row col) := by
  have hr : row.toNat < ROW_MAX := by rw [ROW_MAX_eq] at *; omega
  have hc : col.toNat < COL_MAX := by rw [COL_MAX_eq] at *; omega
  refine ⟨?_, count_neighbours_eq hg hr0 hr1 hc0 hc1, liveNeighbours_le g row col, ?_, ?_⟩
  · intro p hp
    obtain ⟨h1, h2, h3⟩ := offsets_mem hp
    obtain ⟨e1, b1⟩ := wrapIndex_row hr0 hr1 h1
    obtain ⟨e2, b2⟩ := wrapIndex_col hc0 hc1 h2
    refine ⟨e1, e1 ▸ b1, e2, e2 ▸ b2, neighbour_read hg hr0 hr1 hc0 hc1 h1 h2, ?_⟩
    rintro ⟨f1, f2⟩
    rw [e1, ROW_MAX_eq] at f1
    rw [e2, COL_MAX_eq] at f2
    rw [ROW_MAX_eq] at hr1
    rw [COL_MAX_eq] at hc1
    exact h3 ⟨torus_ne_self hr0 (by simpa using hr1) h1 f1,
      torus_ne_self hc0 (by simpa using hc1) h2 f2⟩
  · intro v
    rw [count_neighbours_eq (withCell_wf hg hr hc v) hr0 hr1 hc0 hc1,
      count_neighbours_eq hg hr0 hr1 hc0 hc1,
      liveNeighbours_withCell_self hg hr0 hr1 hc0 hc1 v]
  · intro e1 e2 halive
    subst e1 e2
    apply List.countP_pos_iff.mpr
    refine ⟨(-1, -1), by decide, ?_⟩
    have t1 : torus 0 (-1) ROW_MAX = ROW_MAX - 1 := by decide
    have t2 : torus 0 (-1) COL_MAX = COL_MAX - 1 := by decide
    simp only [t1, t2, halive]

/-- Witness for C2: the all-dead grid built by the constructor, at cell `(0, 0)`. -/
theorem count_neighbours_spec_witness :
    WellFormed deadGrid ∧ (0 : Int) ≤ 0 ∧ (0 : Int) < ROW_MAX ∧ (0 : Int) < COL_MAX ∧
      count_neighbours deadGrid 0 0 = some (liveNeighbours deadGrid 0 0 : Int) ∧
      liveNeighbours deadGrid 0 0 ≤ 8 :=
  ⟨deadGrid_wf, le_refl 0, by decide, by decide,
    (count_neighbours_spec deadGrid deadGrid_wf 0 0 (le_refl 0) (by decide) (le_refl 0)
      (by decide)).2.1,
    (count_neighbours_spec deadGrid deadGrid_wf 0 0 (le_refl 0) (by decide) (le_refl 0)
      (by decide)).2.2.1⟩

/-- C3: for a pointer position `(px, py)` given as 32-bit signed integers, the grid click
branch never reads or writes outside the grid and leaves `is_running`, `delay_ms` (and
`next_grid`) unchanged; when `px` or `py` is negative or at least 896 the state is
unchanged, otherwise exactly the cell `[px / 8][py / 8]` of `curr_grid` is negated. -/
theorem gridClick_spec (s : Game) (hc : WellFormed s.curr_grid) (px py : Int)
    (hpx : -2147483648 ≤ px ∧ px < 2147483648) (hpy : -2147483648 ≤ py ∧ py < 2147483648) :
    ∃ s', gridClick s px py = some s' ∧
      s'.is_running = s.is_running ∧ s'.delay_ms = s.delay_ms ∧
      s'.next_grid = s.next_grid ∧ WellFormed s'.curr_grid ∧
      ((px < 0 ∨ py < 0 ∨ 896 ≤ px ∨ 896 ≤ py) → s'.curr_grid = s.curr_grid) ∧
      ((0 ≤ px ∧ px < 896 ∧ 0 ≤ py ∧ py < 896) →
        (px / 8).toNat < ROW_MAX ∧ (py / 8).toNat < COL_MAX ∧
        ∀ a b, cellAt s'.curr_grid a b =
          if a = (px / 8).toNat ∧ b = (py / 8).toNat then !cellAt s.curr_grid a b
          else cellAt s.curr_grid a b) := by
  by_cases hin : 0 ≤ px ∧ px < 896 ∧ 0 ≤ py ∧ py < 896
  · obtain ⟨h1, h2, h3, h4⟩ := hin
    have ex : toUnsigned px = px.toNat := by
      simp only [toUnsigned, U32, Nat.cast_ofNat]
      rw [Int.emod_eq_of_lt h1 (by omega)]
    have ey : toUnsigned py = py.toNat := by
      simp only [toUnsigned, U32, Nat.cast_ofNat]
      rw [Int.emod_eq_of_lt h3 (by omega)]
    have dx : px.toNat / 8 = (px / 8).toNat := by omega
    have dy : py.toNat / 8 = (py / 8).toNat := by omega
    have bx : (px / 8).toNat < ROW_MAX := by rw [ROW_MAX_eq]; omega
    have bcol : (py / 8).toNat < COL_MAX := by rw [COL_MAX_eq]; omega
    have c1 : px.toNat < WINDOW_HEIGHT ∧ py.toNat < WINDOW_WIDTH := by
      simp only [WINDOW_HEIGHT, WINDOW_WIDTH]; omega
    refine ⟨⟨withCell s.curr_grid (px / 8).toNat (py / 8).toNat
        (!cellAt s.curr_grid (px / 8).toNat (py / 8).toNat), s.next_grid, s.delay_ms,
        s.is_running⟩, ?_, rfl, rfl, rfl, withCell_wf hc bx bcol _, ?_, ?_⟩
    · simp only [gridClick, ex, ey, c1, and_self, if_true, CELL_SIZE, dx, dy, bx, bcol,
        readCell_wf hc bx bcol, writeCell_eq_withCell hc bx bcol]
    · intro h; omega
    · intro _
      refine ⟨bx, bcol, fun a b => ?_⟩
      show cellAt (withCell s.curr_grid (px / 8).toNat (py / 8).toNat _) a b = _
      rw [cellAt_withCell hc bx bcol]
      by_cases hab : a = (px / 8).toNat ∧ b = (py / 8).toNat
      · rw [if_pos hab, if_pos hab, hab.1, hab.2]
      · rw [if_neg hab, if_neg hab]
  · refine ⟨s, ?_, rfl, rfl, rfl, hc, fun _ => rfl, fun h => absurd h hin⟩
    unfold gridClick
    by_cases hw : toUnsigned px < WINDOW_HEIGHT ∧ toUnsigned py < WINDOW_WIDTH
    · rw [if_pos hw]
      have hb : ¬ (toUnsigned px / CELL_SIZE < ROW_MAX ∧ toUnsigned py / CELL_SIZE < COL_MAX) := by
        simp only [toUnsigned, U32, Nat.cast_ofNat, WINDOW_HEIGHT, WINDOW_WIDTH, CELL_SIZE,
          ROW_MAX_eq, COL_MAX_eq] at hw ⊢
        omega
      simp only [hb, if_false]
    · rw [if_neg hw]

/-- Witness for C3: a click at pixel `(8, 16)` on the grid built by the constructor. -/
theorem gridClick_spec_witness :
    WellFormed init.curr_grid ∧
    ∃ s', gridClick init 8 16 = some s' ∧
      s'.is_running = init.is_running ∧ s'.delay_ms = init.delay_ms ∧
      s'.next_grid = init.next_grid ∧ WellFormed s'.curr_grid ∧
      (((8 : Int) < 0 ∨ (16 : Int) < 0 ∨ (896 : Int) ≤ 8 ∨ (896 : Int) ≤ 16) →
        s'.curr_grid = init.curr_grid) ∧
      (((0 : Int) ≤ 8 ∧ (8 : Int) < 896 ∧ (0 : Int) ≤ 16 ∧ (16 : Int) < 896) →
        ((8 : Int) / 8).toNat < ROW_MAX ∧ ((16 : Int) / 8).toNat < COL_MAX ∧
        ∀ a b, cellAt s'.curr_grid a b =
          if a = ((8 : Int) / 8).toNat ∧ b = ((16 : Int) / 8).toNat then
            !cellAt init.curr_grid a b
          else cellAt init.curr_grid a b) :=
  ⟨deadGrid_wf, gridClick_spec init deadGrid_wf 8 16 (by decide) (by decide)⟩

/-- C7: on a well-formed state, a cell that is alive and whose eight toroidal neighbours
are all dead before `update` is dead after `update`, wherever it lies on the grid. -/
theorem isolated_cell_dies (s : Game) (hc : WellFormed s.curr_grid)
    (hn : WellFormed s.next_grid) (i j : Nat) (hi : i < ROW_MAX) (hj : j < COL_MAX)
    (_halive : readCell s.curr_grid i j = some true)
    (hiso : ∀ p ∈ offsets,
      readCell s.curr_grid (torus i p.1 ROW_MAX) (torus j p.2 COL_MAX) = some false) :
    ∃ s', update s = some s' ∧ readCell s'.curr_grid i j = some false := by
  refine ⟨_, update_eq s hc hn, ?_⟩
  show readCell (lifeStep (withCell s.curr_grid 50 50 true)) i j = some false
  rw [readCell_lifeStep _ hi hj]
  congr 1
  apply rule_le_one
  have hz : liveNeighbours s.curr_grid (i : Int) (j : Int) = 0 := by
    rw [liveNeighbours, List.countP_eq_zero]
    intro p hp
    obtain ⟨h1, h2, _⟩ := offsets_mem hp
    have b1 := (wrapIndex_row (Int.ofNat_nonneg i) (Int.ofNat_lt.mpr hi) h1).2
    have b2 := (wrapIndex_col (Int.ofNat_nonneg j) (Int.ofNat_lt.mpr hj) h2).2
    have hr := hiso p hp
    rw [readCell_wf hc b1 b2] at hr
    simp [Option.some.inj hr]
  have h := liveNeighbours_force_le hc (by decide : 50 < ROW_MAX) (by decide : 50 < COL_MAX)
    (i : Int) (j : Int)
  rw [hz] at h
  exact h

/-- Witness for C7: the lone alive cell `(49, 50)`. -/
theorem isolated_cell_dies_witness :
    readCell singleGrid 49 50 = some true ∧
    (∀ p ∈ offsets,
      readCell singleGrid (torus 49 p.1 ROW_MAX) (torus 50 p.2 COL_MAX) = some false) ∧
    ∃ s', update { curr_grid := singleGrid, next_grid := deadGrid, delay_ms := 100,
                   is_running := true } = some s' ∧
      readCell s'.curr_grid 49 50 = some false :=
  ⟨by decide, by decide,
    isolated_cell_dies { curr_grid := singleGrid, next_grid := deadGrid, delay_ms := 100,
                         is_running := true }
      (mkGrid_wf _) deadGrid_wf 49 50 (by decide) (by decide) (by decide) (by decide)⟩

/-- C8: on a well-formed state `clear` succeeds, yields a well-formed current grid in
which every cell is dead, leaves `is_running`, `delay_ms` and `next_grid` unchanged, and
is idempotent. -/
theorem clear_spec (s : Game) (hc : WellFormed s.curr_grid) :
    ∃ s', clear s = some s' ∧ WellFormed s'.curr_grid ∧
      (∀ i j, i < ROW_MAX → j < COL_MAX → readCell s'.curr_grid i j = some false) ∧
      s'.is_running = s.is_running ∧ s'.delay_ms = s.delay_ms ∧
      s'.next_grid = s.next_grid ∧
      clear s' = some s' ∧ (clear s).bind clear = clear s := by
  have h2 : clear { s with curr_grid := deadGrid } = some { s with curr_grid := deadGrid } :=
    clear_eq _ deadGrid_wf
  refine ⟨{ s with curr_grid := deadGrid }, clear_eq s hc, deadGrid_wf, ?_, rfl, rfl, rfl,
    h2, ?_⟩
  · intro i j hi hj
    show readCell deadGrid i j = some false
    rw [readCell_wf deadGrid_wf hi hj, cellAt_deadGrid]
  · rw [clear_eq s hc, Option.some_bind, h2]

/-- Witness for C8: clearing a running engine whose grid holds one alive cell. -/
theorem clear_spec_witness :
    WellFormed singleGrid ∧
    ∃ s', clear { curr_grid := singleGrid, next_grid := deadGrid, delay_ms := 75,
                  is_running := true } = some s' ∧ WellFormed s'.curr_grid ∧
      (∀ i j, i < ROW_MAX → j < COL_MAX → readCell s'.curr_grid i j = some false) ∧
      s'.is_running = true ∧ s'.delay_ms = 75 ∧ s'.next_grid = deadGrid ∧
      clear s' = some s' ∧
      (clear { curr_grid := singleGrid, next_grid := deadGrid, delay_ms := 75,
               is_running := true }).bind clear
        = clear { curr_grid := singleGrid, next_grid := deadGrid, delay_ms := 75,
                  is_running := true } :=
  ⟨mkGrid_wf _, clear_spec { curr_grid := singleGrid, next_grid := deadGrid, delay_ms := 75,
                             is_running := true } (mkGrid_wf _)⟩

/-- C9: on a well-formed state `update` succeeds and leaves in `curr_grid` the synchronous
B3/S23 step of the grid obtained from the old `curr_grid` by setting cell `[50][50]`
alive: every resulting cell is `rule` of the state and neighbour count of that cell in
that one grid, the result does not mention the old `next_grid`, it is well-formed, and
`is_running` and `delay_ms` are unchanged. -/
theorem update_refines_forced_step (s : Game) (hc : WellFormed s.curr_grid)
    (hn : WellFormed s.next_grid) :
    ∃ s', update s = some s' ∧
      s'.curr_grid = lifeStep (withCell s.curr_grid 50 50 true) ∧
      writeCell s.curr_grid 50 50 true = some (withCell s.curr_grid 50 50 true) ∧
      (∀ a b, cellAt (withCell s.curr_grid 50 50 true) a b
        = if a = 50 ∧ b = 50 then true else cellAt s.curr_grid a b) ∧
      (∀ i j, i < ROW_MAX → j < COL_MAX →
        readCell s'.curr_grid i j
          = some (rule (cellAt (withCell s.curr_grid 50 50 true) i j)
              (liveNeighbours (withCell s.curr_grid 50 50 true) (i : Int) (j : Int)))) ∧
      (∀ next, WellFormed next →
        (update { s with next_grid := next }).map Game.curr_grid = some s'.curr_grid) ∧
      WellFormed s'.curr_grid ∧ s'.next_grid = s'.curr_grid ∧
      s'.is_running = s.is_running ∧ s'.delay_ms = s.delay_ms := by
  refine ⟨_, update_eq s hc hn, rfl,
    writeCell_eq_withCell hc (by decide) (by decide) true,
    cellAt_withCell hc (by decide) (by decide) true,
    fun i j hi hj => readCell_lifeStep _ hi hj, ?_, lifeStep_wf _, rfl, rfl, rfl⟩
  intro next hnext
  rw [update_eq { s with next_grid := next } hc hnext]
  rfl

/-- Witness for C9: the state built by the constructor. -/
theorem update_refines_forced_step_witness :
    WellFormed init.curr_grid ∧ WellFormed init.next_grid ∧
    ∃ s', update init = some s' ∧
      s'.curr_grid = lifeStep (withCell init.curr_grid 50 50 true) ∧
      s'.is_running = init.is_running ∧ s'.delay_ms = init.delay_ms := by
  obtain ⟨s', h1, h2, _, _, _, _, _, _, h3, h4⟩ :=
    update_refines_forced_step init deadGrid_wf deadGrid_wf
  exact ⟨deadGrid_wf, deadGrid_wf, s', h1, h2, h3, h4⟩

theorem updateN_dead (n : Nat) : ∀ s : Game, s.curr_grid = deadGrid →
    WellFormed s.next_grid → ∃ s', updateN n s = some s' ∧ s'.curr_grid = deadGrid := by
  induction n with
  | zero => intro s h _; exact ⟨s, rfl, h⟩
  | succ n ih =>
    intro s h hn
    have hu := update_eq s (h ▸ deadGrid_wf) hn
    rw [h, lifeStep_forced_dead] at hu
    obtain ⟨s', hs', hd⟩ := ih { s with curr_grid := deadGrid, next_grid := deadGrid } rfl
      deadGrid_wf
    exact ⟨s', by simp only [updateN, hu, Option.some_bind]; exact hs', hd⟩

/-- C10: starting from the state built by the constructor, or from the result of `clear`
on a well-formed state, any number `n` of `update` calls succeeds and leaves every cell
of the current grid dead. -/
theorem dead_grid_fixed (n : Nat) (s : Game)
    (hstart : s = init ∨
      ∃ s0, WellFormed s0.curr_grid ∧ WellFormed s0.next_grid ∧ clear s0 = some s) :
    ∃ s', updateN n s = some s' ∧ s'.curr_grid = deadGrid ∧
      ∀ i j, i < ROW_MAX → j < COL_MAX → readCell s'.curr_grid i j = some false := by
  have hs : s.curr_grid = deadGrid ∧ WellFormed s.next_grid := by
    rcases hstart with h | ⟨s0, h0, h1, h2⟩
    · subst h; exact ⟨rfl, deadGrid_wf⟩
    · rw [clear_eq s0 h0] at h2
      have e := Option.some.inj h2
      subst e
      exact ⟨rfl, h1⟩
  obtain ⟨s', h1, h2⟩ := updateN_dead n s hs.1 hs.2
  refine ⟨s', h1, h2, fun i j hi hj => ?_⟩
  rw [h2, readCell_wf deadGrid_wf hi hj, cellAt_deadGrid]

/-- Witness for C10: three generations from the state built by the constructor. -/
theorem dead_grid_fixed_witness :
    (init = init ∨
      ∃ s0, WellFormed s0.curr_grid ∧ WellFormed s0.next_grid ∧ clear s0 = some init) ∧
    ∃ s', updateN 3 init = some s' ∧ s'.curr_grid = deadGrid ∧
      ∀ i j, i < ROW_MAX → j < COL_MAX → readCell s'.curr_grid i j = some false :=
  ⟨Or.inl rfl, dead_grid_fixed 3 init (Or.inl rfl)⟩

theorem runSpeed_minus (k : Nat) : ∀ s : Game, s.delay_ms < U32 →
    (runSpeed (List.replicate k SpeedCmd.minus) s).delay_ms = (s.delay_ms + 25 * k) % U32 := by
  induction k with
  | zero => intro s h; simpa [runSpeed] using (Nat.mod_eq_of_lt h).symm
  | succ k ih =>
    intro s h
    have hlt : (slowdown s).delay_ms < U32 := Nat.mod_lt _ (by decide)
    have hstep : runSpeed (List.replicate (k + 1) SpeedCmd.minus) s
        = runSpeed (List.replicate k SpeedCmd.minus) (slowdown s) := rfl
    rw [hstep, ih (slowdown s) hlt]
    simp only [slowdown, U32]
    omega

theorem speedup_delay (s : Game) :
    (speedup s).delay_ms
      = if s.delay_ms > 0 then (s.delay_ms + U32 - 25) % U32 else s.delay_ms := by
  unfold speedup
  split <;> rfl

/-- While `delay_ms` is a multiple of 25 (no `speed-` has overflowed), the guard of
`speed+` is enough: the subtraction is exact and stops at zero. -/
theorem speedup_exact_of_multiple (s : Game) (k : Nat) (h : s.delay_ms = 25 * k)
    (hlt : s.delay_ms < U32) :
    (speedup s).delay_ms = s.delay_ms - 25 ∧
      (0 < s.delay_ms → (speedup s).delay_ms + 25 = s.delay_ms) := by
  rw [speedup_delay]
  simp only [U32] at *
  split <;> omega

/-- C4 (the code at a failing input): 171798688 `speed-` commands from the initial state
overflow the 32-bit `delay_ms` to 4, which is not a multiple of 25; the next `speed+`
passes the guard `delay_ms > 0` and the unsigned subtraction wraps to 4294967275. -/
theorem speedup_wraps_after_overflow :
    (runSpeed (List.replicate 171798688 SpeedCmd.minus) init).delay_ms = 4 ∧
    (speedup (runSpeed (List.replicate 171798688 SpeedCmd.minus) init)).delay_ms
      = 4294967275 := by
  have h4 : (runSpeed (List.replicate 171798688 SpeedCmd.minus) init).delay_ms = 4 := by
    rw [runSpeed_minus 171798688 init (by decide)]
    decide
  refine ⟨h4, ?_⟩
  rw [speedup_delay, h4]
  decide

/-- C1 (the code at a failing input): with only `(49, 49)` and `(49, 50)` alive, the cell
`(50, 50)` is dead with exactly two live neighbours, so B3/S23 keeps it dead, yet it is
alive after `update`. -/
theorem update_pairGrid :
    ∃ s', update { curr_grid := pairGrid, next_grid := deadGrid, delay_ms := 100,
                   is_running := true } = some s' ∧
      readCell pairGrid 50 50 = some false ∧
      liveNeighbours pairGrid 50 50 = 2 ∧
      rule false 2 = false ∧
      readCell s'.curr_grid 50 50 = some true := by
  refine ⟨_, update_eq _ (mkGrid_wf _) deadGrid_wf, by decide, by decide, by decide, ?_⟩
  show readCell (lifeStep (withCell pairGrid 50 50 true)) 50 50 = some true
  rw [readCell_lifeStep _ (by decide) (by decide)]
  decide

/-- C5 (the code at a failing input): the block with corner `(48, 48)` is not left
unchanged by `update`; its cell `(49, 49)`, a neighbour of the forced cell `(50, 50)`,
dies. -/
theorem update_block_48_48 :
    ∃ s', update { curr_grid := blockGrid 48 48, next_grid := deadGrid, delay_ms := 100,
                   is_running := true } = some s' ∧
      readCell (blockGrid 48 48) 49 49 = some true ∧
      readCell s'.curr_grid 49 49 = some false ∧
      s'.curr_grid ≠ blockGrid 48 48 := by
  have h1 : readCell (blockGrid 48 48) 49 49 = some true := by decide
  have h2 : readCell (lifeStep (withCell (blockGrid 48 48) 50 50 true)) 49 49
      = some false := by
    rw [readCell_lifeStep _ (by decide) (by decide)]
    decide
  refine ⟨_, update_eq _ (mkGrid_wf _) deadGrid_wf, h1, h2, ?_⟩
  intro e
  have e2 : readCell (lifeStep (withCell (blockGrid 48 48) 50 50 true)) 49 49
      = readCell (blockGrid 48 48) 49 49 := congrArg (fun g => readCell g 49 49) e
  rw [h1, h2] at e2
  exact absurd e2 (by decide)

/-- C6 (the code at a failing input): two `update` calls on the horizontal blinker with
centre `(48, 50)` do not give the blinker back; the cell `(50, 50)`, dead in the blinker,
is alive after the second call. -/
theorem update_twice_blinker_48_50 :
    ∃ s', updateN 2 { curr_grid := blinkerH 48 50, next_grid := deadGrid, delay_ms := 100,
                      is_running := true } = some s' ∧
      readCell (blinkerH 48 50) 50 50 = some false ∧
      readCell s'.curr_grid 50 50 = some true ∧
      s'.curr_grid ≠ blinkerH 48 50 := by
  have h1 : readCell (blinkerH 48 50) 50 50 = some false := by decide
  have h2 : readCell (lifeStep (withCell (lifeStep (withCell (blinkerH 48 50) 50 50 true))
      50 50 true)) 50 50 = some true := by
    rw [readCell_lifeStep _ (by decide) (by decide)]
    decide
  refine ⟨⟨lifeStep (withCell (lifeStep (withCell (blinkerH 48 50) 50 50 true)) 50 50 true),
    lifeStep (withCell (lifeStep (withCell (blinkerH 48 50) 50 50 true)) 50 50 true),
    100, true⟩, ?_, h1, h2, ?_⟩
  · simp only [updateN]
    rw [update_eq _ (mkGrid_wf _) deadGrid_wf, Option.some_bind,
      update_eq _ (lifeStep_wf _) (lifeStep_wf _), Option.some_bind]
  · intro e
    have e2 := congrArg (fun g => readCell g 50 50) e
    simp only [h1, h2] at e2
    exact absurd e2 (by decide)

end GameOfLife
